import Mathlib

/-!
Shallow embedding of the directed-graph data structure (incidence list with
lazy ghost cleanup) from src/distribution/Graph.js, together with proofs of
the specification's claims about it.

Node identifiers are modelled as natural numbers; JavaScript objects used as
string-keyed maps are modelled as association lists (first occurrence wins,
matching the unique-key discipline of JS objects).  Every operation that can
mutate the graph (getEdge performs lazy cleanup) returns its result paired
with the successor state.
-/

/-- An edge record: `{_fromId, _toId, weight}` in the source. -/
structure Edge where
  fromId : Nat
  toId : Nat
  weight : Int
deriving DecidableEq, Repr

/-- A node record: `{_id, _outEdges, _inEdges, _edgeCount}` in the source. -/
structure Node where
  id : Nat
  outEdges : List (Nat × Edge)
  inEdges : List (Nat × Edge)
  edgeCount : Int
deriving DecidableEq, Repr

/-- The graph: `_nodes`, `nodeSize`, `edgeSize`. -/
structure Graph where
  nodes : List (Nat × Node)
  nodeSize : Int
  edgeSize : Int
deriving DecidableEq, Repr

/-- Map lookup (`obj[k]`): first entry with the key. -/
def alookup {α : Type} : List (Nat × α) → Nat → Option α
  | [], _ => none
  | (k, v) :: rest, key => if k = key then some v else alookup rest key

/-- Map write (`obj[k] = v`): update the first occurrence in place, else append. -/
def aset {α : Type} : List (Nat × α) → Nat → α → List (Nat × α)
  | [], key, v => [(key, v)]
  | (k, w) :: rest, key, v =>
    if k = key then (k, v) :: rest else (k, w) :: aset rest key v

/-- Map delete (`delete obj[k]`): remove the first occurrence of the key. -/
def aerase {α : Type} : List (Nat × α) → Nat → List (Nat × α)
  | [], _ => []
  | (k, w) :: rest, key =>
    if k = key then rest else (k, w) :: aerase rest key

/-- Replace the record stored under `id` in the node map. -/
def setNode (g : Graph) (id : Nat) (n : Node) : Graph :=
  { g with nodes := aset g.nodes id n }

/-- Apply an in-place mutation to the node stored under `id` (no-op when absent). -/
def updNode (g : Graph) (id : Nat) (f : Node → Node) : Graph :=
  match alookup g.nodes id with
  | some n => setNode g id (f n)
  | none => g

/-- `delete fromNode._outEdges[toId]`. -/
def eraseOutSlot (g : Graph) (fromId toId : Nat) : Graph :=
  updNode g fromId (fun n => { n with outEdges := aerase n.outEdges toId })

/-- `delete toNode._inEdges[fromId]`. -/
def eraseInSlot (g : Graph) (fromId toId : Nat) : Graph :=
  updNode g toId (fun n => { n with inEdges := aerase n.inEdges fromId })

/-- `new Graph`. -/
def Graph.empty : Graph := ⟨[], 0, 0⟩

/-- `Graph.prototype.addNode`. -/
def addNode (g : Graph) (id : Nat) : Option Node × Graph :=
  match alookup g.nodes id with
  | some _ => (none, g)
  | none =>
    let n : Node := ⟨id, [], [], 0⟩
    (some n, { g with nodes := aset g.nodes id n, nodeSize := g.nodeSize + 1 })

/-- `Graph.prototype.getNode`. -/
def getNode (g : Graph) (id : Nat) : Option Node :=
  alookup g.nodes id

/-- `Graph.prototype.removeNode`. -/
def removeNode (g : Graph) (id : Nat) : Option Node × Graph :=
  match alookup g.nodes id with
  | none => (none, g)
  | some nodeToRemove =>
    (some nodeToRemove,
      { g with nodes := aerase g.nodes id,
               nodeSize := g.nodeSize - 1,
               edgeSize := g.edgeSize - nodeToRemove.edgeCount })

/-- `Graph.prototype.getEdge`, the consistency-repair point.  Returns the
looked-up edge together with the (possibly cleaned-up) successor state. -/
def getEdge (g : Graph) (fromId toId : Nat) : Option Edge × Graph :=
  match alookup g.nodes fromId, alookup g.nodes toId with
  | none, none => (none, g)
  | none, some toNode =>
    if (alookup toNode.inEdges fromId).isSome then
      (none, setNode g toId { toNode with inEdges := aerase toNode.inEdges fromId })
    else
      (none, g)
  | some fromNode, none =>
    if (alookup fromNode.outEdges toId).isSome then
      (none, setNode g fromId { fromNode with outEdges := aerase fromNode.outEdges toId })
    else
      (none, g)
  | some fromNode, some toNode =>
    if (alookup fromNode.outEdges toId).isNone && (alookup toNode.inEdges fromId).isSome then
      (none, setNode g toId { toNode with inEdges := aerase toNode.inEdges fromId })
    else if (alookup toNode.inEdges fromId).isNone && (alookup fromNode.outEdges toId).isSome then
      (none, setNode g fromId { fromNode with outEdges := aerase fromNode.outEdges toId })
    else
      (alookup fromNode.outEdges toId, g)

/-- `Graph.prototype.addEdge`.  The weight argument models the optional JS
parameter: `none` stands for an omitted weight and defaults to 1. -/
def addEdge (g : Graph) (fromId toId : Nat) (w : Option Int) : Option Edge × Graph :=
  let weight := w.getD 1
  let p := getEdge g fromId toId
  if p.1.isSome then (none, p.2)
  else
    match alookup p.2.nodes fromId, alookup p.2.nodes toId with
    | some _, some _ =>
      let e : Edge := ⟨fromId, toId, weight⟩
      let g2 := updNode p.2 fromId (fun n => { n with outEdges := aset n.outEdges toId e })
      let g3 := updNode g2 toId (fun n => { n with inEdges := aset n.inEdges fromId e })
      let g4 := updNode g3 fromId (fun n => { n with edgeCount := n.edgeCount + 1 })
      let g5 := { g4 with edgeSize := g4.edgeSize + 1 }
      let g6 := if fromId = toId then g5
                else updNode g5 toId (fun n => { n with edgeCount := n.edgeCount + 1 })
      (some e, g6)
    | _, _ => (none, p.2)

/-- `Graph.prototype.removeEdge`. -/
def removeEdge (g : Graph) (fromId toId : Nat) : Option Edge × Graph :=
  let p := getEdge g fromId toId
  match p.1 with
  | none => (none, p.2)
  | some edgeToDelete =>
    let g2 := eraseOutSlot p.2 fromId toId
    let g3 := eraseInSlot g2 fromId toId
    (some edgeToDelete, { g3 with edgeSize := g3.edgeSize - 1 })

/-- The loop body of `getInEdgesOf`: re-validate each captured key via
`getEdge fromId nodeId`, collecting the edges that resolve. -/
def collectIn : Graph → Nat → List Nat → List Edge × Graph
  | g, _, [] => ([], g)
  | g, nodeId, fromId :: rest =>
    let p := getEdge g fromId nodeId
    let q := collectIn p.2 nodeId rest
    match p.1 with
    | some e => (e :: q.1, q.2)
    | none => q

/-- `Graph.prototype.getInEdgesOf`. -/
def getInEdgesOf (g : Graph) (nodeId : Nat) : List Edge × Graph :=
  match alookup g.nodes nodeId with
  | none => ([], g)
  | some toNode => collectIn g nodeId (toNode.inEdges.map Prod.fst)

/-- The loop body of `getOutEdgesOf`: re-validate each captured key via
`getEdge nodeId toId`. -/
def collectOut : Graph → Nat → List Nat → List Edge × Graph
  | g, _, [] => ([], g)
  | g, nodeId, toId :: rest =>
    let p := getEdge g nodeId toId
    let q := collectOut p.2 nodeId rest
    match p.1 with
    | some e => (e :: q.1, q.2)
    | none => q

/-- `Graph.prototype.getOutEdgesOf`. -/
def getOutEdgesOf (g : Graph) (nodeId : Nat) : List Edge × Graph :=
  match alookup g.nodes nodeId with
  | none => ([], g)
  | some fromNode => collectOut g nodeId (fromNode.outEdges.map Prod.fst)

/-- Index of the first occurrence of `se` (the `inEdges[i] === selfEdge` scan). -/
def firstIdx (l : List Edge) (se : Edge) : Option Nat :=
  List.findIdx? (fun x => x = se) l

/-- Swap position `i` with the last element, then pop the last element. -/
def popSwap (l : List Edge) (i : Nat) : List Edge :=
  match l.getLast? with
  | none => l
  | some last => (l.set i last).dropLast

/-- `Graph.prototype.getAllEdgesOf`: in-edges plus out-edges, with one
occurrence of the self-loop removed from the in-edges by swap-with-last. -/
def getAllEdgesOf (g : Graph) (nodeId : Nat) : List Edge × Graph :=
  let pin := getInEdgesOf g nodeId
  let pout := getOutEdgesOf pin.2 nodeId
  if pin.1.length = 0 then (pout.1, pout.2)
  else
    let ps := getEdge pout.2 nodeId nodeId
    match ps.1 with
    | none => (pin.1 ++ pout.1, ps.2)
    | some se =>
      match firstIdx pin.1 se with
      | none => (pin.1 ++ pout.1, ps.2)
      | some i => (popSwap pin.1 i ++ pout.1, ps.2)

/-- The out-map slot `fromNode._outEdges[toId]` as read from the graph. -/
def outSlot (g : Graph) (fromId toId : Nat) : Option Edge :=
  match alookup g.nodes fromId with
  | some n => alookup n.outEdges toId
  | none => none

/-- The in-map slot `toNode._inEdges[fromId]` as read from the graph. -/
def inSlot (g : Graph) (fromId toId : Nat) : Option Edge :=
  match alookup g.nodes toId with
  | some n => alookup n.inEdges fromId
  | none => none

/-- A mutually-consistent edge `fromId → toId`: both endpoints are live and
both the tail's out-slot and the head's in-slot are occupied. -/
def validEdge (g : Graph) (fromId toId : Nat) : Bool :=
  match alookup g.nodes fromId, alookup g.nodes toId with
  | some fn, some tn =>
    (alookup fn.outEdges toId).isSome && (alookup tn.inEdges fromId).isSome
  | _, _ => false

/-- The number of currently valid, mutually-consistent edges in the graph. -/
def validEdgeCount (g : Graph) : Nat :=
  (g.nodes.map
    (fun p => (p.2.outEdges.filter (fun q => validEdge g p.1 q.1)).length)).sum

/-- The number of currently valid edges with `id` as an endpoint
(a self-loop contributes once, from its out-slot). -/
def touchingEdgeCount (g : Graph) (id : Nat) : Nat :=
  (g.nodes.map
    (fun p => (p.2.outEdges.filter
      (fun q => validEdge g p.1 q.1 && (decide (p.1 = id) || decide (q.1 = id)))).length)).sum

/-- The `_edgeCount` field of the node stored under `id`, when present. -/
def edgeCountOf (g : Graph) (id : Nat) : Option Int :=
  (alookup g.nodes id).map Node.edgeCount

/-- Whether the out-edge of `b` keyed by `k` currently resolves: the target
node `k` is live and its in-map still has the matching slot. -/
def goodTarget (g : Graph) (b k : Nat) : Bool :=
  match alookup g.nodes k with
  | some kt => (alookup kt.inEdges b).isSome
  | none => false

/-- Erase a list of keys from a map, left to right. -/
def eraseList {α : Type} (m : List (Nat × α)) (ks : List Nat) : List (Nat × α) :=
  ks.foldl aerase m

/-- The keys of an association list are pairwise distinct (always true of a
JavaScript object used as a map). -/
def NodupKeys {α : Type} (l : List (Nat × α)) : Prop :=
  (l.map Prod.fst).Nodup

/-- Well-formedness: the node map and every node's two edge maps have
pairwise-distinct keys. -/
def WF (g : Graph) : Prop :=
  NodupKeys g.nodes ∧ ∀ p ∈ g.nodes, NodupKeys p.2.outEdges ∧ NodupKeys p.2.inEdges

instance nodupKeysDecidable {α : Type} [DecidableEq α] (l : List (Nat × α)) :
    Decidable (NodupKeys l) := by
  unfold NodupKeys
  infer_instance

instance wfDecidable (g : Graph) : Decidable (WF g) := by
  unfold WF
  infer_instance

/-- States reachable from a fresh `Graph` by any sequence of public calls. -/
inductive Reachable : Graph → Prop where
  | empty : Reachable Graph.empty
  | addNode {g : Graph} (id : Nat) : Reachable g → Reachable (addNode g id).2
  | removeNode {g : Graph} (id : Nat) : Reachable g → Reachable (removeNode g id).2
  | addEdge {g : Graph} (f t : Nat) (w : Option Int) :
      Reachable g → Reachable (addEdge g f t w).2
  | getEdge {g : Graph} (f t : Nat) : Reachable g → Reachable (getEdge g f t).2
  | removeEdge {g : Graph} (f t : Nat) : Reachable g → Reachable (removeEdge g f t).2
  | getInEdgesOf {g : Graph} (id : Nat) : Reachable g → Reachable (getInEdgesOf g id).2
  | getOutEdgesOf {g : Graph} (id : Nat) : Reachable g → Reachable (getOutEdgesOf g id).2
  | getAllEdgesOf {g : Graph} (id : Nat) : Reachable g → Reachable (getAllEdgesOf g id).2

/-!
Exception-explicit variants.  Every property access the JavaScript performs on
a possibly-`undefined` value goes through `deref`, which raises (models a
`TypeError`) when the value is absent.  Proving these equal to `.ok` of the
total versions shows no operation ever dereferences a missing record.
-/

/-- Dereference a possibly-absent record, raising on `none`. -/
def deref {α : Type} : Option α → Except Unit α
  | some a => .ok a
  | none => .error ()

/-- Exception-explicit `addNode` (accesses only the always-present node map). -/
def addNodeE (g : Graph) (id : Nat) : Except Unit (Option Node × Graph) :=
  if (alookup g.nodes id).isSome then .ok (none, g)
  else
    .ok (some ⟨id, [], [], 0⟩,
      { g with nodes := aset g.nodes id ⟨id, [], [], 0⟩, nodeSize := g.nodeSize + 1 })

/-- Exception-explicit `getNode`. -/
def getNodeE (g : Graph) (id : Nat) : Except Unit (Option Node) :=
  .ok (alookup g.nodes id)

/-- Exception-explicit `removeNode`: dereferences `this._nodes[id]._edgeCount`
after the truthiness check. -/
def removeNodeE (g : Graph) (id : Nat) : Except Unit (Option Node × Graph) := do
  let nodeToRemove := alookup g.nodes id
  if !nodeToRemove.isSome then return (none, g)
  else do
    let n ← deref (alookup g.nodes id)
    return (nodeToRemove,
      { g with nodes := aerase g.nodes id,
               nodeSize := g.nodeSize - 1,
               edgeSize := g.edgeSize - n.edgeCount })

/-- Exception-explicit `getEdge`: follows the source's truthiness checks and
dereferences node records exactly where the source accesses their fields. -/
def getEdgeE (g : Graph) (fromId toId : Nat) : Except Unit (Option Edge × Graph) := do
  let fromNode := alookup g.nodes fromId
  let toNode := alookup g.nodes toId
  if !fromNode.isSome && !toNode.isSome then return (none, g)
  else if !fromNode.isSome then do
    let tn ← deref toNode
    if (alookup tn.inEdges fromId).isSome then
      return (none, setNode g toId { tn with inEdges := aerase tn.inEdges fromId })
    else return (none, g)
  else if !toNode.isSome then do
    let fn ← deref fromNode
    if (alookup fn.outEdges toId).isSome then
      return (none, setNode g fromId { fn with outEdges := aerase fn.outEdges toId })
    else return (none, g)
  else do
    let fn ← deref fromNode
    let tn ← deref toNode
    if (alookup fn.outEdges toId).isNone && (alookup tn.inEdges fromId).isSome then
      return (none, setNode g toId { tn with inEdges := aerase tn.inEdges fromId })
    else if (alookup tn.inEdges fromId).isNone && (alookup fn.outEdges toId).isSome then
      return (none, setNode g fromId { fn with outEdges := aerase fn.outEdges toId })
    else return (alookup fn.outEdges toId, g)

/-- Exception-explicit `addEdge`. -/
def addEdgeE (g : Graph) (fromId toId : Nat) (w : Option Int) :
    Except Unit (Option Edge × Graph) := do
  let weight := w.getD 1
  let p ← getEdgeE g fromId toId
  if p.1.isSome then return (none, p.2)
  else do
    let fromNode := alookup p.2.nodes fromId
    let toNode := alookup p.2.nodes toId
    if !fromNode.isSome || !toNode.isSome then return (none, p.2)
    else do
      let _ ← deref fromNode
      let _ ← deref toNode
      let e : Edge := ⟨fromId, toId, weight⟩
      let g2 := updNode p.2 fromId (fun n => { n with outEdges := aset n.outEdges toId e })
      let g3 := updNode g2 toId (fun n => { n with inEdges := aset n.inEdges fromId e })
      let g4 := updNode g3 fromId (fun n => { n with edgeCount := n.edgeCount + 1 })
      let g5 := { g4 with edgeSize := g4.edgeSize + 1 }
      let g6 := if fromId = toId then g5
                else updNode g5 toId (fun n => { n with edgeCount := n.edgeCount + 1 })
      return (some e, g6)

/-- Exception-explicit `removeEdge`: the deletions dereference the node
records captured before the `getEdge` validation call. -/
def removeEdgeE (g : Graph) (fromId toId : Nat) : Except Unit (Option Edge × Graph) := do
  let fromNode := alookup g.nodes fromId
  let toNode := alookup g.nodes toId
  let p ← getEdgeE g fromId toId
  match p.1 with
  | none => return (none, p.2)
  | some edgeToDelete => do
    let _ ← deref fromNode
    let _ ← deref toNode
    let g2 := eraseOutSlot p.2 fromId toId
    let g3 := eraseInSlot g2 fromId toId
    return (some edgeToDelete, { g3 with edgeSize := g3.edgeSize - 1 })

/-- Exception-explicit loop body of `getInEdgesOf`. -/
def collectInE : Graph → Nat → List Nat → Except Unit (List Edge × Graph)
  | g, _, [] => .ok ([], g)
  | g, nodeId, fromId :: rest => do
    let p ← getEdgeE g fromId nodeId
    let q ← collectInE p.2 nodeId rest
    match p.1 with
    | some e => return (e :: q.1, q.2)
    | none => return q

/-- Exception-explicit `getInEdgesOf`. -/
def getInEdgesOfE (g : Graph) (nodeId : Nat) : Except Unit (List Edge × Graph) := do
  let toNode := alookup g.nodes nodeId
  if !toNode.isSome then return ([], g)
  else do
    let tn ← deref toNode
    collectInE g nodeId (tn.inEdges.map Prod.fst)

/-- Exception-explicit loop body of `getOutEdgesOf`. -/
def collectOutE : Graph → Nat → List Nat → Except Unit (List Edge × Graph)
  | g, _, [] => .ok ([], g)
  | g, nodeId, toId :: rest => do
    let p ← getEdgeE g nodeId toId
    let q ← collectOutE p.2 nodeId rest
    match p.1 with
    | some e => return (e :: q.1, q.2)
    | none => return q

/-- Exception-explicit `getOutEdgesOf`. -/
def getOutEdgesOfE (g : Graph) (nodeId : Nat) : Except Unit (List Edge × Graph) := do
  let fromNode := alookup g.nodes nodeId
  if !fromNode.isSome then return ([], g)
  else do
    let fn ← deref fromNode
    collectOutE g nodeId (fn.outEdges.map Prod.fst)

/-- Exception-explicit `getAllEdgesOf` (array indexing is total in the
source; only the node and edge lookups can dereference). -/
def getAllEdgesOfE (g : Graph) (nodeId : Nat) : Except Unit (List Edge × Graph) := do
  let pin ← getInEdgesOfE g nodeId
  let pout ← getOutEdgesOfE pin.2 nodeId
  if pin.1.length = 0 then return (pout.1, pout.2)
  else do
    let ps ← getEdgeE pout.2 nodeId nodeId
    match ps.1 with
    | none => return (pin.1 ++ pout.1, ps.2)
    | some se =>
      match firstIdx pin.1 se with
      | none => return (pin.1 ++ pout.1, ps.2)
      | some i => return (popSwap pin.1 i ++ pout.1, ps.2)

/-!
Concrete scenario states used by the bug exhibits and the witnesses.
-/

/-- addNode 0; addNode 1: two fresh nodes, no edges. -/
def gN2 : Graph := (addNode (addNode Graph.empty 0).2 1).2

/-- addNode 0; addNode 1; addEdge 0 1: two nodes joined by one edge. -/
def gAB : Graph := (addEdge (addNode (addNode Graph.empty 0).2 1).2 0 1 none).2

/-- The C1 exhibit: addNode 0; addNode 1; addEdge 0 1; removeEdge 0 1;
removeNode 0.  `removeEdge` leaves both `_edgeCount` fields stale, so the
final `removeNode` drives `edgeSize` to -1 with no valid edge left. -/
def c1s : Graph := (removeNode (removeEdge gAB 0 1).2 0).2

/-- The C2 exhibit: addNode 0; addNode 1; addEdge 0 1; removeNode 0.  Node 1
survives with a ghost in-edge and a stale `_edgeCount` of 1. -/
def c2s : Graph := (removeNode gAB 0).2

/-- A tiny graph in which node 0 (which had the edge 0 → 1) has been removed:
node 1 keeps the ghost in-slot for 0. -/
def c8g : Graph :=
  ⟨[(1, ⟨1, [], [(0, ⟨0, 1, 1⟩)], 1⟩)], 1, 0⟩

/-- A graph whose node 0 carries a self-loop and one further out-edge to
node 1, and no other edges: the C9 shape. -/
def c9g : Graph :=
  ⟨[(0, ⟨0, [(0, ⟨0, 0, 1⟩), (1, ⟨0, 1, 1⟩)], [(0, ⟨0, 0, 1⟩)], 2⟩),
    (1, ⟨1, [], [(0, ⟨0, 1, 1⟩)], 1⟩)], 2, 2⟩

/-!
Association-list lemmas.
-/


theorem alookup_aset_self {α : Type} (l : List (Nat × α)) (k : Nat) (v : α) :
    alookup (aset l k v) k = some v := by
  induction l with
  | nil => simp [aset, alookup]
  | cons p rest ih =>
    obtain ⟨a, w⟩ := p
    by_cases h : a = k
    · simp [aset, alookup, h]
    · simp [aset, alookup, h, ih]

theorem alookup_aset_ne {α : Type} (l : List (Nat × α)) (k k' : Nat) (v : α)
    (h : k' ≠ k) : alookup (aset l k v) k' = alookup l k' := by
  have h' : ¬k = k' := fun hh => h hh.symm
  induction l with
  | nil => simp [aset, alookup, h']
  | cons p rest ih =>
    obtain ⟨a, w⟩ := p
    by_cases ha : a = k
    · subst ha
      simp [aset, alookup, h']
    · simp [aset, alookup, ha, ih]

theorem alookup_aerase_ne {α : Type} (l : List (Nat × α)) (k k' : Nat)
    (h : k' ≠ k) : alookup (aerase l k) k' = alookup l k' := by
  have h' : ¬k = k' := fun hh => h hh.symm
  induction l with
  | nil => simp [aerase]
  | cons p rest ih =>
    obtain ⟨a, w⟩ := p
    by_cases ha : a = k
    · subst ha
      simp [aerase, alookup, h']
    · simp [aerase, alookup, ha, ih]

theorem aerase_sublist {α : Type} (l : List (Nat × α)) (k : Nat) :
    (aerase l k).Sublist l := by
  induction l with
  | nil => simp [aerase]
  | cons p rest ih =>
    obtain ⟨a, w⟩ := p
    by_cases ha : a = k
    · simp only [aerase, if_pos ha]
      exact List.sublist_cons_self (a, w) rest
    · simpa [aerase, ha] using List.Sublist.cons₂ (a, w) ih

theorem alookup_isSome_iff_mem {α : Type} (l : List (Nat × α)) (k : Nat) :
    (alookup l k).isSome = true ↔ k ∈ l.map Prod.fst := by
  induction l with
  | nil => simp [alookup]
  | cons p rest ih =>
    obtain ⟨a, w⟩ := p
    by_cases ha : a = k
    · subst ha
      simp [alookup]
    · have ha' : ¬k = a := fun hh => ha hh.symm
      simp [alookup, ha, ha', ih]

theorem alookup_eq_none_of_not_mem {α : Type} (l : List (Nat × α)) (k : Nat)
    (h : k ∉ l.map Prod.fst) : alookup l k = none := by
  cases hv : alookup l k with
  | none => rfl
  | some v =>
    exact absurd ((alookup_isSome_iff_mem l k).mp (by simp [hv])) h

theorem alookup_aerase_self {α : Type} (l : List (Nat × α)) (k : Nat)
    (h : NodupKeys l) : alookup (aerase l k) k = none := by
  induction l with
  | nil => simp [aerase, alookup]
  | cons p rest ih =>
    obtain ⟨a, w⟩ := p
    have hcons := List.nodup_cons.mp h
    by_cases ha : a = k
    · subst ha
      simpa [aerase] using alookup_eq_none_of_not_mem rest a hcons.1
    · simp [aerase, alookup, ha, ih hcons.2]

theorem mem_of_alookup {α : Type} (l : List (Nat × α)) (k : Nat) (v : α)
    (h : alookup l k = some v) : (k, v) ∈ l := by
  induction l with
  | nil => simp [alookup] at h
  | cons p rest ih =>
    obtain ⟨a, w⟩ := p
    by_cases ha : a = k
    · subst ha
      simp [alookup] at h
      simp [h]
    · simp [alookup, ha] at h
      simp [ih h]

theorem aset_eq_of_alookup {α : Type} (l : List (Nat × α)) (k : Nat) (v : α)
    (h : alookup l k = some v) : aset l k v = l := by
  induction l with
  | nil => simp [alookup] at h
  | cons p rest ih =>
    obtain ⟨a, w⟩ := p
    by_cases ha : a = k
    · subst ha
      simp [alookup] at h
      simp [aset, h]
    · simp [alookup, ha] at h
      simp [aset, ha, ih h]

theorem aset_aset_same {α : Type} (l : List (Nat × α)) (k : Nat) (v w : α) :
    aset (aset l k v) k w = aset l k w := by
  induction l with
  | nil => simp [aset]
  | cons p rest ih =>
    obtain ⟨a, u⟩ := p
    by_cases ha : a = k
    · simp [aset, ha]
    · simp [aset, ha, ih]

theorem keys_aset_of_isSome {α : Type} (l : List (Nat × α)) (k : Nat) (v : α)
    (h : (alookup l k).isSome = true) :
    (aset l k v).map Prod.fst = l.map Prod.fst := by
  induction l with
  | nil => simp [alookup] at h
  | cons p rest ih =>
    obtain ⟨a, w⟩ := p
    by_cases ha : a = k
    · simp [aset, ha]
    · simp [alookup, ha] at h
      simp [aset, ha, ih h]

theorem nodupKeys_aset {α : Type} (l : List (Nat × α)) (k : Nat) (v : α)
    (h : NodupKeys l) : NodupKeys (aset l k v) := by
  cases hs : (alookup l k).isSome with
  | true =>
    unfold NodupKeys
    rw [keys_aset_of_isSome l k v hs]
    exact h
  | false =>
    have hnm : k ∉ l.map Prod.fst := by
      intro hm
      rw [← alookup_isSome_iff_mem] at hm
      rw [hm] at hs
      cases hs
    have hkeys : (aset l k v).map Prod.fst = l.map Prod.fst ++ [k] := by
      clear h
      induction l with
      | nil => simp [aset]
      | cons p rest ih =>
        obtain ⟨a, w⟩ := p
        by_cases ha : a = k
        · exact absurd (by simp [ha]) hnm
        · have h2 : k ∉ rest.map Prod.fst := by
            intro hm
            exact hnm (by simp [hm])
          simp [aset, ha, ih (by
            revert hs
            simp [alookup, ha]) h2]
    unfold NodupKeys
    rw [hkeys]
    simp [List.nodup_append]
    exact ⟨h, by simpa using hnm⟩

theorem nodupKeys_aerase {α : Type} (l : List (Nat × α)) (k : Nat)
    (h : NodupKeys l) : NodupKeys (aerase l k) :=
  List.Nodup.sublist (List.Sublist.map Prod.fst (aerase_sublist l k)) h

/-!
Frame lemmas for node updates.
-/

theorem updNode_nodeSize (g : Graph) (i : Nat) (f : Node → Node) :
    (updNode g i f).nodeSize = g.nodeSize := by
  unfold updNode
  cases alookup g.nodes i <;> rfl

theorem updNode_edgeSize (g : Graph) (i : Nat) (f : Node → Node) :
    (updNode g i f).edgeSize = g.edgeSize := by
  unfold updNode
  cases alookup g.nodes i <;> rfl

theorem updNode_of_none {g : Graph} {i : Nat} (f : Node → Node)
    (h : alookup g.nodes i = none) : updNode g i f = g := by
  simp [updNode, h]

theorem alookup_updNode_self {g : Graph} {i : Nat} {n : Node} (f : Node → Node)
    (h : alookup g.nodes i = some n) :
    alookup (updNode g i f).nodes i = some (f n) := by
  simp [updNode, h, setNode, alookup_aset_self]

theorem alookup_updNode_ne {g : Graph} {i j : Nat} (f : Node → Node)
    (h : j ≠ i) : alookup (updNode g i f).nodes j = alookup g.nodes j := by
  unfold updNode
  cases hv : alookup g.nodes i with
  | none => rfl
  | some n => simp [setNode, alookup_aset_ne _ _ _ _ h]

theorem updNode_keys (g : Graph) (i : Nat) (f : Node → Node) :
    (updNode g i f).nodes.map Prod.fst = g.nodes.map Prod.fst := by
  unfold updNode
  cases hv : alookup g.nodes i with
  | none => rfl
  | some n =>
    simp only [setNode]
    exact keys_aset_of_isSome _ _ _ (by simp [hv])

theorem updNode_isSome (g : Graph) (i : Nat) (f : Node → Node) (x : Nat) :
    (alookup (updNode g i f).nodes x).isSome = (alookup g.nodes x).isSome := by
  by_cases hx : x = i
  · subst hx
    cases hv : alookup g.nodes x with
    | none => rw [updNode_of_none f hv, hv]
    | some n => rw [alookup_updNode_self f hv]; rfl
  · rw [alookup_updNode_ne f hx]

/-!
Frame and characterization lemmas for `getEdge`.
-/

theorem getEdge_snd_cases (g : Graph) (f t : Nat) :
    (getEdge g f t).2 = g ∨ (getEdge g f t).2 = eraseOutSlot g f t ∨
      (getEdge g f t).2 = eraseInSlot g f t := by
  cases hf : alookup g.nodes f with
  | none =>
    cases ht : alookup g.nodes t with
    | none => left; simp [getEdge, hf, ht]
    | some tn =>
      rcases hi : alookup tn.inEdges f with _ | e
      · left; simp [getEdge, hf, ht, hi]
      · right; right
        simp [getEdge, hf, ht, hi, eraseInSlot, updNode, setNode]
  | some fn =>
    cases ht : alookup g.nodes t with
    | none =>
      rcases ho : alookup fn.outEdges t with _ | e
      · left; simp [getEdge, hf, ht, ho]
      · right; left
        simp [getEdge, hf, ht, ho, eraseOutSlot, updNode, setNode]
    | some tn =>
      rcases ho : alookup fn.outEdges t with _ | e <;>
        rcases hi : alookup tn.inEdges f with _ | e'
      · left; simp [getEdge, hf, ht, ho, hi]
      · right; right
        simp [getEdge, hf, ht, ho, hi, eraseInSlot, updNode, setNode]
      · right; left
        simp [getEdge, hf, ht, ho, hi, eraseOutSlot, updNode, setNode]
      · left; simp [getEdge, hf, ht, ho, hi]

theorem getEdge_edgeSize (g : Graph) (f t : Nat) :
    (getEdge g f t).2.edgeSize = g.edgeSize := by
  rcases getEdge_snd_cases g f t with h | h | h <;>
    rw [h] <;> simp [eraseOutSlot, eraseInSlot, updNode_edgeSize]

theorem getEdge_nodeSize (g : Graph) (f t : Nat) :
    (getEdge g f t).2.nodeSize = g.nodeSize := by
  rcases getEdge_snd_cases g f t with h | h | h <;>
    rw [h] <;> simp [eraseOutSlot, eraseInSlot, updNode_nodeSize]

theorem getEdge_keys (g : Graph) (f t : Nat) :
    (getEdge g f t).2.nodes.map Prod.fst = g.nodes.map Prod.fst := by
  rcases getEdge_snd_cases g f t with h | h | h <;>
    rw [h] <;> simp [eraseOutSlot, eraseInSlot, updNode_keys]

theorem getEdge_lookup_isSome (g : Graph) (f t x : Nat) :
    (alookup (getEdge g f t).2.nodes x).isSome = (alookup g.nodes x).isSome := by
  rcases getEdge_snd_cases g f t with h | h | h <;>
    rw [h] <;> simp [eraseOutSlot, eraseInSlot, updNode_isSome]

theorem getEdge_fst_isSome (g : Graph) (f t : Nat) :
    (getEdge g f t).1.isSome = validEdge g f t := by
  cases hf : alookup g.nodes f with
  | none =>
    cases ht : alookup g.nodes t with
    | none => simp [getEdge, validEdge, hf, ht]
    | some tn =>
      rcases hi : alookup tn.inEdges f with _ | e <;>
        simp [getEdge, validEdge, hf, ht, hi]
  | some fn =>
    cases ht : alookup g.nodes t with
    | none =>
      rcases ho : alookup fn.outEdges t with _ | e <;>
        simp [getEdge, validEdge, hf, ht, ho]
    | some tn =>
      rcases ho : alookup fn.outEdges t with _ | e <;>
        rcases hi : alookup tn.inEdges f with _ | e' <;>
        simp [getEdge, validEdge, hf, ht, ho, hi]

theorem getEdge_some_spec {g : Graph} {f t : Nat} {e : Edge}
    (h : (getEdge g f t).1 = some e) :
    (getEdge g f t).2 = g ∧ outSlot g f t = some e ∧
      (inSlot g f t).isSome = true ∧
      (alookup g.nodes f).isSome = true ∧ (alookup g.nodes t).isSome = true := by
  cases hf : alookup g.nodes f with
  | none =>
    cases ht : alookup g.nodes t with
    | none => simp [getEdge, hf, ht] at h
    | some tn =>
      rcases hi : alookup tn.inEdges f with _ | e' <;>
        simp [getEdge, hf, ht, hi] at h
  | some fn =>
    cases ht : alookup g.nodes t with
    | none =>
      rcases ho : alookup fn.outEdges t with _ | e' <;>
        simp [getEdge, hf, ht, ho] at h
    | some tn =>
      rcases ho : alookup fn.outEdges t with _ | e' <;>
        rcases hi : alookup tn.inEdges f with _ | e'' <;>
        simp [getEdge, hf, ht, ho, hi] at h <;>
        simp [getEdge, outSlot, inSlot, hf, ht, ho, hi, h]

theorem getEdge_bothSome (g : Graph) (f t : Nat) {fn tn : Node}
    (hf : alookup g.nodes f = some fn) (ht : alookup g.nodes t = some tn) :
    getEdge g f t =
      if (alookup fn.outEdges t).isNone && (alookup tn.inEdges f).isSome then
        (none, setNode g t { tn with inEdges := aerase tn.inEdges f })
      else if (alookup tn.inEdges f).isNone && (alookup fn.outEdges t).isSome then
        (none, setNode g f { fn with outEdges := aerase fn.outEdges t })
      else
        (alookup fn.outEdges t, g) := by
  simp [getEdge, hf, ht]

/-!
Well-formedness: every reachable state has duplicate-free keys in the node
map and in every node's edge maps.
-/

theorem mem_aset {α : Type} (l : List (Nat × α)) (k : Nat) (v : α)
    (p : Nat × α) (h : p ∈ aset l k v) : p = (k, v) ∨ p ∈ l := by
  induction l with
  | nil => simpa [aset] using h
  | cons q rest ih =>
    obtain ⟨a, w⟩ := q
    by_cases ha : a = k
    · subst ha
      rcases (by simpa [aset] using h : p = (a, v) ∨ p ∈ rest) with h1 | h1
      · exact Or.inl h1
      · exact Or.inr (by simp [h1])
    · rcases (by simpa [aset, ha] using h : p = (a, w) ∨ p ∈ aset rest k v) with h1 | h1
      · exact Or.inr (by simp [h1])
      · rcases ih h1 with h2 | h2
        · exact Or.inl h2
        · exact Or.inr (by simp [h2])

theorem mem_of_mem_aerase {α : Type} (l : List (Nat × α)) (k : Nat)
    (p : Nat × α) (h : p ∈ aerase l k) : p ∈ l :=
  (aerase_sublist l k).mem h

theorem wf_empty : WF Graph.empty := by
  constructor
  · simp [Graph.empty, NodupKeys]
  · intro p hp
    simp [Graph.empty] at hp

theorem wf_setNode {g : Graph} {i : Nat} {n : Node} (hg : WF g)
    (hn : NodupKeys n.outEdges ∧ NodupKeys n.inEdges) : WF (setNode g i n) := by
  obtain ⟨h1, h2⟩ := hg
  refine ⟨nodupKeys_aset _ _ _ h1, ?_⟩
  intro p hp
  rcases mem_aset _ _ _ _ hp with h | h
  · subst h
    exact hn
  · exact h2 p h

theorem wf_updNode {g : Graph} {i : Nat} {f : Node → Node} (hg : WF g)
    (hf : ∀ n, NodupKeys n.outEdges → NodupKeys n.inEdges →
      NodupKeys (f n).outEdges ∧ NodupKeys (f n).inEdges) :
    WF (updNode g i f) := by
  unfold updNode
  cases hv : alookup g.nodes i with
  | none => exact hg
  | some n =>
    have hmem := mem_of_alookup _ _ _ hv
    have hn := hg.2 _ hmem
    exact wf_setNode hg (hf n hn.1 hn.2)

theorem wf_edgeSize {g : Graph} (hg : WF g) (x : Int) :
    WF { g with edgeSize := x } := hg

theorem wf_addNode {g : Graph} (id : Nat) (hg : WF g) : WF (addNode g id).2 := by
  unfold addNode
  cases hv : alookup g.nodes id with
  | some n => exact hg
  | none =>
    refine ⟨nodupKeys_aset _ _ _ hg.1, ?_⟩
    intro p hp
    rcases mem_aset _ _ _ _ hp with h | h
    · subst h
      constructor <;> simp [NodupKeys]
    · exact hg.2 p h

theorem wf_removeNode {g : Graph} (id : Nat) (hg : WF g) : WF (removeNode g id).2 := by
  unfold removeNode
  cases hv : alookup g.nodes id with
  | none => exact hg
  | some n =>
    refine ⟨nodupKeys_aerase _ _ hg.1, ?_⟩
    intro p hp
    exact hg.2 p (mem_of_mem_aerase _ _ _ hp)

theorem wf_eraseOutSlot {g : Graph} (f t : Nat) (hg : WF g) :
    WF (eraseOutSlot g f t) :=
  wf_updNode hg (fun n h1 h2 => ⟨nodupKeys_aerase _ _ h1, h2⟩)

theorem wf_eraseInSlot {g : Graph} (f t : Nat) (hg : WF g) :
    WF (eraseInSlot g f t) :=
  wf_updNode hg (fun n h1 h2 => ⟨h1, nodupKeys_aerase _ _ h2⟩)

theorem wf_getEdge {g : Graph} (f t : Nat) (hg : WF g) : WF (getEdge g f t).2 := by
  rcases getEdge_snd_cases g f t with h | h | h <;> rw [h]
  · exact hg
  · exact wf_eraseOutSlot f t hg
  · exact wf_eraseInSlot f t hg

theorem wf_addEdge {g : Graph} (f t : Nat) (w : Option Int) (hg : WF g) :
    WF (addEdge g f t w).2 := by
  have hg1 := wf_getEdge f t hg
  cases hs : (getEdge g f t).1.isSome with
  | true => simpa [addEdge, hs] using hg1
  | false =>
    cases hf : alookup (getEdge g f t).2.nodes f with
    | none => simpa [addEdge, hs, hf] using hg1
    | some fn =>
      cases ht : alookup (getEdge g f t).2.nodes t with
      | none => simpa [addEdge, hs, hf, ht] using hg1
      | some tn =>
        have h2 : WF (updNode (getEdge g f t).2 f
            (fun n => { n with outEdges := aset n.outEdges t ⟨f, t, (w.getD 1)⟩ })) :=
          wf_updNode hg1 (fun n h1 h2 => ⟨nodupKeys_aset _ _ _ h1, h2⟩)
        have h3 := wf_updNode (i := t)
          (f := fun n => { n with inEdges := aset n.inEdges f ⟨f, t, (w.getD 1)⟩ })
          h2 (fun n h1 h2 => ⟨h1, nodupKeys_aset _ _ _ h2⟩)
        have h4 := wf_updNode (i := f)
          (f := fun n => { n with edgeCount := n.edgeCount + 1 }) h3
          (fun n h1 h2 => ⟨h1, h2⟩)
        have h5 := wf_edgeSize h4 ((updNode (updNode (updNode (getEdge g f t).2 f
          (fun n => { n with outEdges := aset n.outEdges t ⟨f, t, (w.getD 1)⟩ })) t
          (fun n => { n with inEdges := aset n.inEdges f ⟨f, t, (w.getD 1)⟩ })) f
          (fun n => { n with edgeCount := n.edgeCount + 1 })).edgeSize + 1)
        by_cases hft : f = t
        · subst hft
          simpa [addEdge, hs, hf, ht] using h5
        · have h6 := wf_updNode (i := t)
            (f := fun n => { n with edgeCount := n.edgeCount + 1 }) h5
            (fun n h1 h2 => ⟨h1, h2⟩)
          simpa [addEdge, hs, hf, ht, hft] using h6

theorem wf_removeEdge {g : Graph} (f t : Nat) (hg : WF g) :
    WF (removeEdge g f t).2 := by
  have hg1 := wf_getEdge f t hg
  cases hv : (getEdge g f t).1 with
  | none => simpa [removeEdge, hv] using hg1
  | some e =>
    have h2 := wf_eraseInSlot f t (wf_eraseOutSlot f t hg1)
    simpa [removeEdge, hv] using wf_edgeSize h2 _

theorem wf_collectIn {g : Graph} {nid : Nat} (ks : List Nat) (hg : WF g) :
    WF (collectIn g nid ks).2 := by
  induction ks generalizing g with
  | nil => exact hg
  | cons k rest ih =>
    have h1 := ih (wf_getEdge k nid hg)
    cases hv : (getEdge g k nid).1 <;>
      simpa [collectIn, hv] using h1

theorem wf_collectOut {g : Graph} {nid : Nat} (ks : List Nat) (hg : WF g) :
    WF (collectOut g nid ks).2 := by
  induction ks generalizing g with
  | nil => exact hg
  | cons k rest ih =>
    have h1 := ih (wf_getEdge nid k hg)
    cases hv : (getEdge g nid k).1 <;>
      simpa [collectOut, hv] using h1

theorem wf_getInEdgesOf {g : Graph} (id : Nat) (hg : WF g) :
    WF (getInEdgesOf g id).2 := by
  unfold getInEdgesOf
  cases hv : alookup g.nodes id with
  | none => exact hg
  | some n => exact wf_collectIn _ hg

theorem wf_getOutEdgesOf {g : Graph} (id : Nat) (hg : WF g) :
    WF (getOutEdgesOf g id).2 := by
  unfold getOutEdgesOf
  cases hv : alookup g.nodes id with
  | none => exact hg
  | some n => exact wf_collectOut _ hg

theorem wf_getAllEdgesOf {g : Graph} (id : Nat) (hg : WF g) :
    WF (getAllEdgesOf g id).2 := by
  have h1 := wf_getInEdgesOf id hg
  have h2 := wf_getOutEdgesOf id h1
  have h3 := wf_getEdge id id h2
  unfold getAllEdgesOf
  by_cases hl : (getInEdgesOf g id).1.length = 0
  · simpa [hl] using h2
  · cases hv : (getEdge (getOutEdgesOf (getInEdgesOf g id).2 id).2 id id).1 with
    | none => simpa [hl, hv] using h3
    | some se =>
      cases hi : firstIdx (getInEdgesOf g id).1 se <;>
        simpa [hl, hv, hi] using h3

/-- Every state reachable by public operations is well-formed. -/
theorem reachable_wf {g : Graph} (h : Reachable g) : WF g := by
  induction h with
  | empty => exact wf_empty
  | addNode id _ ih => exact wf_addNode id ih
  | removeNode id _ ih => exact wf_removeNode id ih
  | addEdge f t w _ ih => exact wf_addEdge f t w ih
  | getEdge f t _ ih => exact wf_getEdge f t ih
  | removeEdge f t _ ih => exact wf_removeEdge f t ih
  | getInEdgesOf id _ ih => exact wf_getInEdgesOf id ih
  | getOutEdgesOf id _ ih => exact wf_getOutEdgesOf id ih
  | getAllEdgesOf id _ ih => exact wf_getAllEdgesOf id ih

/-!
The exception-explicit variants never raise: each one agrees with its total
counterpart.
-/

@[simp] theorem exceptPure_eq {α β : Type} (a : α) :
    (pure a : Except β α) = Except.ok a := rfl

@[simp] theorem exceptBind_ok {α β γ : Type} (a : α) (f : α → Except γ β) :
    (Except.ok a >>= f) = f a := rfl

@[simp] theorem exceptMap_ok {α β γ : Type} (f : α → β) (a : α) :
    (f <$> (Except.ok a : Except γ α)) = Except.ok (f a) := rfl

theorem addNodeE_ok (g : Graph) (id : Nat) : addNodeE g id = .ok (addNode g id) := by
  cases hv : alookup g.nodes id with
  | none => simp [addNodeE, addNode, hv]
  | some n => simp [addNodeE, addNode, hv]

theorem getNodeE_ok (g : Graph) (id : Nat) : getNodeE g id = .ok (getNode g id) := rfl

theorem removeNodeE_ok (g : Graph) (id : Nat) :
    removeNodeE g id = .ok (removeNode g id) := by
  cases hv : alookup g.nodes id with
  | none => simp [removeNodeE, removeNode, hv]
  | some n => simp [removeNodeE, removeNode, hv, deref]

theorem getEdgeE_ok (g : Graph) (f t : Nat) : getEdgeE g f t = .ok (getEdge g f t) := by
  cases hf : alookup g.nodes f with
  | none =>
    cases ht : alookup g.nodes t with
    | none => simp [getEdgeE, getEdge, hf, ht]
    | some tn =>
      rcases hi : alookup tn.inEdges f with _ | e <;>
        simp [getEdgeE, getEdge, deref, hf, ht, hi]
  | some fn =>
    cases ht : alookup g.nodes t with
    | none =>
      rcases ho : alookup fn.outEdges t with _ | e <;>
        simp [getEdgeE, getEdge, deref, hf, ht, ho]
    | some tn =>
      rcases ho : alookup fn.outEdges t with _ | e <;>
        rcases hi : alookup tn.inEdges f with _ | e' <;>
        simp [getEdgeE, getEdge, deref, hf, ht, ho, hi]

theorem addEdgeE_ok (g : Graph) (f t : Nat) (w : Option Int) :
    addEdgeE g f t w = .ok (addEdge g f t w) := by
  cases hs : (getEdge g f t).1.isSome with
  | true => simp [addEdgeE, addEdge, getEdgeE_ok, hs]
  | false =>
    cases hf : alookup (getEdge g f t).2.nodes f with
    | none => simp [addEdgeE, addEdge, getEdgeE_ok, hs, hf]
    | some fn =>
      cases ht : alookup (getEdge g f t).2.nodes t with
      | none => simp [addEdgeE, addEdge, getEdgeE_ok, hs, hf, ht]
      | some tn => simp [addEdgeE, addEdge, getEdgeE_ok, hs, hf, ht, deref]

theorem removeEdgeE_ok (g : Graph) (f t : Nat) :
    removeEdgeE g f t = .ok (removeEdge g f t) := by
  cases hv : (getEdge g f t).1 with
  | none => simp [removeEdgeE, removeEdge, getEdgeE_ok, hv]
  | some e =>
    have hspec := getEdge_some_spec hv
    rcases Option.isSome_iff_exists.mp hspec.2.2.2.1 with ⟨fn, hfn⟩
    rcases Option.isSome_iff_exists.mp hspec.2.2.2.2 with ⟨tn, htn⟩
    simp [removeEdgeE, removeEdge, getEdgeE_ok, hv, hfn, htn, deref]

theorem collectInE_ok (g : Graph) (nid : Nat) (ks : List Nat) :
    collectInE g nid ks = .ok (collectIn g nid ks) := by
  induction ks generalizing g with
  | nil => rfl
  | cons k rest ih =>
    cases hv : (getEdge g k nid).1 with
    | none => simp [collectInE, collectIn, getEdgeE_ok, hv, ih]
    | some e => simp [collectInE, collectIn, getEdgeE_ok, hv, ih]

theorem collectOutE_ok (g : Graph) (nid : Nat) (ks : List Nat) :
    collectOutE g nid ks = .ok (collectOut g nid ks) := by
  induction ks generalizing g with
  | nil => rfl
  | cons k rest ih =>
    cases hv : (getEdge g nid k).1 with
    | none => simp [collectOutE, collectOut, getEdgeE_ok, hv, ih]
    | some e => simp [collectOutE, collectOut, getEdgeE_ok, hv, ih]

theorem getInEdgesOfE_ok (g : Graph) (id : Nat) :
    getInEdgesOfE g id = .ok (getInEdgesOf g id) := by
  cases hv : alookup g.nodes id with
  | none => simp [getInEdgesOfE, getInEdgesOf, hv]
  | some tn => simp [getInEdgesOfE, getInEdgesOf, hv, deref, collectInE_ok]

theorem getOutEdgesOfE_ok (g : Graph) (id : Nat) :
    getOutEdgesOfE g id = .ok (getOutEdgesOf g id) := by
  cases hv : alookup g.nodes id with
  | none => simp [getOutEdgesOfE, getOutEdgesOf, hv]
  | some fn => simp [getOutEdgesOfE, getOutEdgesOf, hv, deref, collectOutE_ok]

theorem getAllEdgesOfE_ok (g : Graph) (id : Nat) :
    getAllEdgesOfE g id = .ok (getAllEdgesOf g id) := by
  by_cases hl : (getInEdgesOf g id).1.length = 0
  · simp only [getAllEdgesOfE, getAllEdgesOf, getInEdgesOfE_ok, getOutEdgesOfE_ok,
      exceptBind_ok, exceptPure_eq, if_pos hl]
  · cases hv : (getEdge (getOutEdgesOf (getInEdgesOf g id).2 id).2 id id).1 with
    | none =>
      simp only [getAllEdgesOfE, getAllEdgesOf, getInEdgesOfE_ok, getOutEdgesOfE_ok,
        getEdgeE_ok, exceptBind_ok, exceptPure_eq, if_neg hl, hv]
    | some se =>
      cases hi : firstIdx (getInEdgesOf g id).1 se with
      | none =>
        simp only [getAllEdgesOfE, getAllEdgesOf, getInEdgesOfE_ok, getOutEdgesOfE_ok,
          getEdgeE_ok, exceptBind_ok, exceptPure_eq, if_neg hl, hv, hi]
      | some i =>
        simp only [getAllEdgesOfE, getAllEdgesOf, getInEdgesOfE_ok, getOutEdgesOfE_ok,
          getEdgeE_ok, exceptBind_ok, exceptPure_eq, if_neg hl, hv, hi]

/-!
The claims.
-/

/-- Claim C1.  The claimed invariant — `edgeSize` equals the number of
currently valid, mutually-consistent edges in every reachable state — fails
on the code: after addNode 0; addNode 1; addEdge 0 1; removeEdge 0 1;
removeNode 0 (a reachable state), `edgeSize` is -1 while no valid edge
exists, because `removeEdge` never decrements the endpoints' `_edgeCount`
and `removeNode` then subtracts the stale count. -/
theorem C1_edgeSize_invariant_violated :
    Reachable c1s ∧ c1s.edgeSize = -1 ∧ validEdgeCount c1s = 0 :=
  ⟨Reachable.removeNode 0 (Reachable.removeEdge 0 1
      (Reachable.addEdge 0 1 none (Reachable.addNode 1
        (Reachable.addNode 0 Reachable.empty)))),
    by decide, by decide⟩

/-- Claim C2.  The claim that `removeNode id` decrements `edgeSize` by
exactly the number of edges currently touching `id` fails on the code: in
the reachable state c2s (addNode 0; addNode 1; addEdge 0 1; removeNode 0),
node 1 is touched by no valid edge, yet `removeNode c2s 1` still decrements
`edgeSize` by 1 (its stale cached `_edgeCount`), driving it to -1. -/
theorem C2_removeNode_overdecrements :
    Reachable c2s ∧ (removeNode c2s 1).1.isSome = true ∧
      touchingEdgeCount c2s 1 = 0 ∧
      c2s.edgeSize - (removeNode c2s 1).2.edgeSize = 1 :=
  ⟨Reachable.removeNode 0 (Reachable.addEdge 0 1 none
      (Reachable.addNode 1 (Reachable.addNode 0 Reachable.empty))),
    by decide, by decide, by decide⟩

/-- Claim C4.  If `id` is not present, `addNode id` returns the fresh node,
`getNode id` afterwards returns that same node and `nodeSize` grows by
exactly 1; if `id` is present, `addNode` returns absent and the state —
including the existing node and its edge maps — is completely unchanged. -/
theorem C4_addNode_spec (g : Graph) (id : Nat) :
    (getNode g id = none →
      (addNode g id).1 = some ⟨id, [], [], 0⟩ ∧
      getNode (addNode g id).2 id = (addNode g id).1 ∧
      (addNode g id).2.nodeSize = g.nodeSize + 1) ∧
    (∀ n, getNode g id = some n → addNode g id = (none, g)) := by
  constructor
  · intro h
    unfold getNode at h
    refine ⟨?_, ?_, ?_⟩ <;> simp [addNode, getNode, h, alookup_aset_self]
  · intro n h
    unfold getNode at h
    simp [addNode, h]

/-- Witness for C4 at concrete inputs: a fresh add on the empty graph and a
rejected duplicate add on gAB. -/
theorem C4_addNode_spec_witness :
    ((addNode Graph.empty 0).1 = some ⟨0, [], [], 0⟩ ∧
      getNode (addNode Graph.empty 0).2 0 = (addNode Graph.empty 0).1 ∧
      (addNode Graph.empty 0).2.nodeSize = Graph.empty.nodeSize + 1) ∧
    addNode gAB 0 = (none, gAB) :=
  ⟨(C4_addNode_spec Graph.empty 0).1 rfl,
   (C4_addNode_spec gAB 0).2 ⟨0, [(1, ⟨0, 1, 1⟩)], [], 1⟩ (by decide)⟩

/-- Claim C7.  `getEdge` never changes `edgeSize` or `nodeSize` and never
adds or removes nodes; its only possible state change is the deletion of the
single stale slot it examines (the tail's out-slot or the head's in-slot). -/
theorem C7_getEdge_frame (g : Graph) (f t : Nat) :
    (getEdge g f t).2.edgeSize = g.edgeSize ∧
    (getEdge g f t).2.nodeSize = g.nodeSize ∧
    (getEdge g f t).2.nodes.map Prod.fst = g.nodes.map Prod.fst ∧
    ((getEdge g f t).2 = g ∨ (getEdge g f t).2 = eraseOutSlot g f t ∨
      (getEdge g f t).2 = eraseInSlot g f t) :=
  ⟨getEdge_edgeSize g f t, getEdge_nodeSize g f t, getEdge_keys g f t,
    getEdge_snd_cases g f t⟩

/-- Claim C10.  Every public operation is total and signals "not found" /
"already exists" / invalid operands by an absent value: the
exception-explicit variants, in which every property access on a
possibly-missing record raises, always return `.ok` of the total result. -/
theorem C10_operations_total :
    (∀ g id, addNodeE g id = .ok (addNode g id)) ∧
    (∀ g id, getNodeE g id = .ok (getNode g id)) ∧
    (∀ g id, removeNodeE g id = .ok (removeNode g id)) ∧
    (∀ g f t w, addEdgeE g f t w = .ok (addEdge g f t w)) ∧
    (∀ g f t, getEdgeE g f t = .ok (getEdge g f t)) ∧
    (∀ g f t, removeEdgeE g f t = .ok (removeEdge g f t)) ∧
    (∀ g id, getInEdgesOfE g id = .ok (getInEdgesOf g id)) ∧
    (∀ g id, getOutEdgesOfE g id = .ok (getOutEdgesOf g id)) ∧
    (∀ g id, getAllEdgesOfE g id = .ok (getAllEdgesOf g id)) :=
  ⟨addNodeE_ok, getNodeE_ok, removeNodeE_ok, addEdgeE_ok, getEdgeE_ok,
    removeEdgeE_ok, getInEdgesOfE_ok, getOutEdgesOfE_ok, getAllEdgesOfE_ok⟩

/-!
Helper lemmas about node-field preservation and the addEdge success path.
-/

theorem map_field_updNode {β : Type} (g : Graph) (i : Nat) (F : Node → Node)
    (fld : Node → β) (hF : ∀ n, fld (F n) = fld n) (x : Nat) :
    (alookup (updNode g i F).nodes x).map fld = (alookup g.nodes x).map fld := by
  by_cases hx : x = i
  · subst hx
    cases hv : alookup g.nodes x with
    | none => rw [updNode_of_none F hv, hv]
    | some n => rw [alookup_updNode_self F hv]; simp [hF]
  · rw [alookup_updNode_ne F hx]

theorem edgeCountOf_updNode (g : Graph) (i : Nat) (F : Node → Node)
    (hF : ∀ n, (F n).edgeCount = n.edgeCount) (x : Nat) :
    edgeCountOf (updNode g i F) x = edgeCountOf g x :=
  map_field_updNode g i F Node.edgeCount hF x

theorem getEdge_preserves_inEdges (g : Graph) (f t x : Nat) (hx : x ≠ t) :
    (alookup (getEdge g f t).2.nodes x).map Node.inEdges =
      (alookup g.nodes x).map Node.inEdges := by
  rcases getEdge_snd_cases g f t with h | h | h <;> rw [h]
  · exact map_field_updNode g f
      (fun n => { n with outEdges := aerase n.outEdges t })
      Node.inEdges (fun n => rfl) x
  · unfold eraseInSlot
    rw [alookup_updNode_ne _ hx]

theorem getEdge_preserves_outEdges (g : Graph) (f t x : Nat) (hx : x ≠ f) :
    (alookup (getEdge g f t).2.nodes x).map Node.outEdges =
      (alookup g.nodes x).map Node.outEdges := by
  rcases getEdge_snd_cases g f t with h | h | h <;> rw [h]
  · unfold eraseOutSlot
    rw [alookup_updNode_ne _ hx]
  · exact map_field_updNode g t
      (fun n => { n with inEdges := aerase n.inEdges f })
      Node.outEdges (fun n => rfl) x

theorem addEdge_fst_success {g : Graph} {f t : Nat} {w : Option Int} {fn tn : Node}
    (hs : (getEdge g f t).1.isSome = false)
    (hf2 : alookup (getEdge g f t).2.nodes f = some fn)
    (ht2 : alookup (getEdge g f t).2.nodes t = some tn) :
    (addEdge g f t w).1 = some ⟨f, t, w.getD 1⟩ := by
  simp [addEdge, hs, hf2, ht2]

theorem addEdge_success_edgeSize {g : Graph} {f t : Nat} {w : Option Int} {fn tn : Node}
    (hs : (getEdge g f t).1.isSome = false)
    (hf2 : alookup (getEdge g f t).2.nodes f = some fn)
    (ht2 : alookup (getEdge g f t).2.nodes t = some tn) :
    (addEdge g f t w).2.edgeSize = g.edgeSize + 1 := by
  by_cases hft : f = t
  · subst hft
    simp [addEdge, hs, hf2, ht2, updNode, setNode, getEdge_edgeSize,
      alookup_aset_self, alookup_aset_ne]
  · have hft' : t ≠ f := Ne.symm hft
    simp [addEdge, hs, hf2, ht2, hft, hft', updNode, setNode, getEdge_edgeSize,
      alookup_aset_self, alookup_aset_ne]

theorem addEdge_success_nodes {g : Graph} {f t : Nat} {w : Option Int} {fn tn : Node}
    (hs : (getEdge g f t).1.isSome = false)
    (hf2 : alookup (getEdge g f t).2.nodes f = some fn)
    (ht2 : alookup (getEdge g f t).2.nodes t = some tn)
    (hft : f ≠ t) :
    alookup (addEdge g f t w).2.nodes f =
      some { fn with outEdges := aset fn.outEdges t ⟨f, t, w.getD 1⟩,
                     edgeCount := fn.edgeCount + 1 } ∧
    alookup (addEdge g f t w).2.nodes t =
      some { tn with inEdges := aset tn.inEdges f ⟨f, t, w.getD 1⟩,
                     edgeCount := tn.edgeCount + 1 } := by
  have hft' : t ≠ f := Ne.symm hft
  constructor <;>
    simp [addEdge, hs, hf2, ht2, hft, hft', updNode, setNode,
      alookup_aset_self, alookup_aset_ne]

theorem addEdge_success_nodes_self {g : Graph} {t : Nat} {w : Option Int} {tn : Node}
    (hs : (getEdge g t t).1.isSome = false)
    (ht2 : alookup (getEdge g t t).2.nodes t = some tn) :
    alookup (addEdge g t t w).2.nodes t =
      some { tn with outEdges := aset tn.outEdges t ⟨t, t, w.getD 1⟩,
                     inEdges := aset tn.inEdges t ⟨t, t, w.getD 1⟩,
                     edgeCount := tn.edgeCount + 1 } := by
  simp [addEdge, hs, ht2, updNode, setNode, alookup_aset_self]

/-- Claim C3.  When `removeEdge` succeeds, the `_edgeCount` of both endpoint
nodes is left unchanged; the entire state change is the deletion of the two
edge-map slots plus the `edgeSize` decrement (node map keys and `nodeSize`
untouched). -/
theorem C3_removeEdge_frame (g : Graph) (f t : Nat) (e : Edge)
    (h : (removeEdge g f t).1 = some e) :
    (removeEdge g f t).2 =
      { eraseInSlot (eraseOutSlot g f t) f t with edgeSize := g.edgeSize - 1 } ∧
    edgeCountOf (removeEdge g f t).2 f = edgeCountOf g f ∧
    edgeCountOf (removeEdge g f t).2 t = edgeCountOf g t ∧
    (removeEdge g f t).2.edgeSize = g.edgeSize - 1 ∧
    (removeEdge g f t).2.nodeSize = g.nodeSize := by
  cases hv : (getEdge g f t).1 with
  | none => simp [removeEdge, hv] at h
  | some e' =>
    have hg1 : (getEdge g f t).2 = g := (getEdge_some_spec hv).1
    have hes : (eraseInSlot (eraseOutSlot g f t) f t).edgeSize = g.edgeSize := by
      unfold eraseInSlot eraseOutSlot
      rw [updNode_edgeSize, updNode_edgeSize]
    have hns : (eraseInSlot (eraseOutSlot g f t) f t).nodeSize = g.nodeSize := by
      unfold eraseInSlot eraseOutSlot
      rw [updNode_nodeSize, updNode_nodeSize]
    have hre : (removeEdge g f t).2 =
        { eraseInSlot (eraseOutSlot g f t) f t with edgeSize := g.edgeSize - 1 } := by
      simp [removeEdge, hv, hg1, hes]
    have hcf : ∀ x : Nat,
        edgeCountOf (eraseInSlot (eraseOutSlot g f t) f t) x = edgeCountOf g x := by
      intro x
      unfold eraseInSlot eraseOutSlot
      rw [edgeCountOf_updNode _ t (fun n => { n with inEdges := aerase n.inEdges f })
            (fun n => rfl),
          edgeCountOf_updNode _ f (fun n => { n with outEdges := aerase n.outEdges t })
            (fun n => rfl)]
    refine ⟨hre, ?_, ?_, ?_, ?_⟩
    · rw [hre]
      exact hcf f
    · rw [hre]
      exact hcf t
    · rw [hre]
    · rw [hre]
      exact hns

/-- Witness for C3: removing the edge 0 → 1 of gAB. -/
theorem C3_removeEdge_frame_witness :
    (removeEdge gAB 0 1).2 =
      { eraseInSlot (eraseOutSlot gAB 0 1) 0 1 with edgeSize := gAB.edgeSize - 1 } ∧
    edgeCountOf (removeEdge gAB 0 1).2 0 = edgeCountOf gAB 0 ∧
    edgeCountOf (removeEdge gAB 0 1).2 1 = edgeCountOf gAB 1 ∧
    (removeEdge gAB 0 1).2.edgeSize = gAB.edgeSize - 1 ∧
    (removeEdge gAB 0 1).2.nodeSize = gAB.nodeSize :=
  C3_removeEdge_frame gAB 0 1 ⟨0, 1, 1⟩ (by decide)

/-- Claim C5.  `addEdge` rejects (returns absent, creating nothing, with
`edgeSize` unchanged and only getEdge's ghost cleanup applied) exactly when a
valid edge already exists or an endpoint is missing; otherwise it returns a
new edge with the requested weight (1 when unspecified), stores it in both
endpoint maps and increments `edgeSize` by exactly 1. -/
theorem C5_addEdge_spec (g : Graph) (f t : Nat) (w : Option Int) :
    ((addEdge g f t w).1 = none ↔
      validEdge g f t = true ∨ getNode g f = none ∨ getNode g t = none) ∧
    ((addEdge g f t w).1 = none →
      (addEdge g f t w).2 = (getEdge g f t).2 ∧
      (addEdge g f t w).2.edgeSize = g.edgeSize) ∧
    (∀ e, (addEdge g f t w).1 = some e →
      e = ⟨f, t, w.getD 1⟩ ∧
      outSlot (addEdge g f t w).2 f t = some e ∧
      inSlot (addEdge g f t w).2 f t = some e ∧
      (addEdge g f t w).2.edgeSize = g.edgeSize + 1) := by
  cases hs : (getEdge g f t).1.isSome with
  | true =>
    have hv : validEdge g f t = true := by rw [← getEdge_fst_isSome g f t]; exact hs
    have ha : addEdge g f t w = (none, (getEdge g f t).2) := by
      simp [addEdge, hs]
    rw [ha]
    exact ⟨by simp [hv], fun _ => ⟨rfl, getEdge_edgeSize g f t⟩, fun e he => by simp at he⟩
  | false =>
    have hnv : validEdge g f t = false := by rw [← getEdge_fst_isSome g f t]; exact hs
    cases hf2 : alookup (getEdge g f t).2.nodes f with
    | none =>
      have hgf : getNode g f = none := by
        unfold getNode
        have hiso := getEdge_lookup_isSome g f t f
        rw [hf2] at hiso
        cases hx : alookup g.nodes f with
        | none => rfl
        | some n => rw [hx] at hiso; simp at hiso
      have ha : addEdge g f t w = (none, (getEdge g f t).2) := by
        simp [addEdge, hs, hf2]
      rw [ha]
      exact ⟨by simp [hgf], fun _ => ⟨rfl, getEdge_edgeSize g f t⟩, fun e he => by simp at he⟩
    | some fn =>
      cases ht2 : alookup (getEdge g f t).2.nodes t with
      | none =>
        have hgt : getNode g t = none := by
          unfold getNode
          have hiso := getEdge_lookup_isSome g f t t
          rw [ht2] at hiso
          cases hx : alookup g.nodes t with
          | none => rfl
          | some n => rw [hx] at hiso; simp at hiso
        have ha : addEdge g f t w = (none, (getEdge g f t).2) := by
          simp [addEdge, hs, hf2, ht2]
        rw [ha]
        exact ⟨by simp [hgt], fun _ => ⟨rfl, getEdge_edgeSize g f t⟩, fun e he => by simp at he⟩
      | some tn =>
        have hfst := addEdge_fst_success (w := w) hs hf2 ht2
        have hgf : ¬getNode g f = none := by
          unfold getNode
          have hiso := getEdge_lookup_isSome g f t f
          rw [hf2] at hiso
          intro hx
          rw [hx] at hiso
          simp at hiso
        have hgt : ¬getNode g t = none := by
          unfold getNode
          have hiso := getEdge_lookup_isSome g f t t
          rw [ht2] at hiso
          intro hx
          rw [hx] at hiso
          simp at hiso
        refine ⟨?_, ?_, ?_⟩
        · rw [hfst]
          simp [hnv, hgf, hgt]
        · intro hno
          rw [hfst] at hno
          simp at hno
        · intro e he
          rw [hfst] at he
          have hee := Option.some.inj he
          subst hee
          refine ⟨rfl, ?_, ?_, addEdge_success_edgeSize hs hf2 ht2⟩
          · by_cases hft : f = t
            · subst hft
              have hn := addEdge_success_nodes_self (w := w) hs hf2
              simp [outSlot, hn, alookup_aset_self]
            · obtain ⟨hpf, hpt⟩ := addEdge_success_nodes (w := w) hs hf2 ht2 hft
              simp [outSlot, hpf, alookup_aset_self]
          · by_cases hft : f = t
            · subst hft
              have hn := addEdge_success_nodes_self (w := w) hs hf2
              simp [inSlot, hn, alookup_aset_self]
            · obtain ⟨hpf, hpt⟩ := addEdge_success_nodes (w := w) hs hf2 ht2 hft
              simp [inSlot, hpt, alookup_aset_self]

/-- Witness for C5: on gAB, re-adding 0 → 1 is rejected with `edgeSize`
unchanged, and adding 1 → 0 succeeds with weight 1 and `edgeSize` + 1. -/
theorem C5_addEdge_spec_witness :
    ((addEdge gAB 0 1 none).1 = none ↔
      validEdge gAB 0 1 = true ∨ getNode gAB 0 = none ∨ getNode gAB 1 = none) ∧
    ((addEdge gAB 1 0 none).1 = some ⟨1, 0, 1⟩ →
      Edge.mk 1 0 1 = ⟨1, 0, (none : Option Int).getD 1⟩ ∧
      outSlot (addEdge gAB 1 0 none).2 1 0 = some ⟨1, 0, 1⟩ ∧
      inSlot (addEdge gAB 1 0 none).2 1 0 = some ⟨1, 0, 1⟩ ∧
      (addEdge gAB 1 0 none).2.edgeSize = gAB.edgeSize + 1) :=
  ⟨(C5_addEdge_spec gAB 0 1 none).1,
   (C5_addEdge_spec gAB 1 0 none).2.2 ⟨1, 0, 1⟩⟩

/-- Claim C6.  For distinct nodes, after a successful `addEdge a b`,
`getEdge a b` returns the created edge while `getEdge b a` returns absent,
provided no edge b → a was separately added. -/
theorem C6_directionality (g : Graph) (a b : Nat) (w : Option Int) (e : Edge)
    (hab : a ≠ b) (hrev : validEdge g b a = false)
    (h : (addEdge g a b w).1 = some e) :
    (getEdge (addEdge g a b w).2 a b).1 = some e ∧
    (getEdge (addEdge g a b w).2 b a).1 = none := by
  cases hs : (getEdge g a b).1.isSome with
  | true =>
    exfalso
    revert h
    simp [addEdge, hs]
  | false =>
    cases hf2 : alookup (getEdge g a b).2.nodes a with
    | none =>
      exfalso
      revert h
      simp [addEdge, hs, hf2]
    | some fn =>
      cases ht2 : alookup (getEdge g a b).2.nodes b with
      | none =>
        exfalso
        revert h
        simp [addEdge, hs, hf2, ht2]
      | some tn =>
        have hfst := addEdge_fst_success (w := w) hs hf2 ht2
        rw [hfst] at h
        have hee := Option.some.inj h
        obtain ⟨hpa, hpb⟩ := addEdge_success_nodes (w := w) hs hf2 ht2 hab
        obtain ⟨bn0, hbn0⟩ : ∃ n, alookup g.nodes b = some n := by
          have hiso := getEdge_lookup_isSome g a b b
          rw [ht2] at hiso
          exact Option.isSome_iff_exists.mp hiso.symm
        obtain ⟨an0, han0⟩ : ∃ n, alookup g.nodes a = some n := by
          have hiso := getEdge_lookup_isSome g a b a
          rw [hf2] at hiso
          exact Option.isSome_iff_exists.mp hiso.symm
        have hto : alookup tn.outEdges a = alookup bn0.outEdges a := by
          have hmap := getEdge_preserves_outEdges g a b b (Ne.symm hab)
          rw [ht2, hbn0] at hmap
          simp at hmap
          rw [hmap]
        have hin : alookup fn.inEdges b = alookup an0.inEdges b := by
          have hmap := getEdge_preserves_inEdges g a b a hab
          rw [hf2, han0] at hmap
          simp at hmap
          rw [hmap]
        constructor
        · rw [getEdge_bothSome _ _ _ hpa hpb]
          simp [alookup_aset_self, hee]
        · rw [getEdge_bothSome _ _ _ hpb hpa]
          have hnboth : ¬((alookup bn0.outEdges a).isSome = true ∧
              (alookup an0.inEdges b).isSome = true) := by
            rintro ⟨h1, h2⟩
            unfold validEdge at hrev
            rw [hbn0, han0] at hrev
            simp [h1, h2] at hrev
          rcases ho : alookup bn0.outEdges a with _ | eo <;>
            rcases hi : alookup an0.inEdges b with _ | ei
          · simp [hto, hin, ho, hi]
          · simp [hto, hin, ho, hi]
          · simp [hto, hin, ho, hi]
          · exact absurd ⟨by rw [ho]; rfl, by rw [hi]; rfl⟩ hnboth

/-- Witness for C6: adding 0 → 1 on the edgeless two-node graph gN2. -/
theorem C6_directionality_witness :
    (getEdge (addEdge gN2 0 1 none).2 0 1).1 = some ⟨0, 1, 1⟩ ∧
    (getEdge (addEdge gN2 0 1 none).2 1 0).1 = none :=
  C6_directionality gN2 0 1 none ⟨0, 1, 1⟩ (by decide) (by decide) (by decide)

/-!
List lemmas for the getOutEdgesOf characterization.
-/

theorem filterMap_congr_mem {α β : Type} {l : List α} {f f' : α → Option β}
    (h : ∀ a ∈ l, f a = f' a) : l.filterMap f = l.filterMap f' := by
  induction l with
  | nil => rfl
  | cons a rest ih =>
    have ha := h a (by simp)
    have ht := ih (fun x hx => h x (by simp [hx]))
    simp [List.filterMap_cons, ha, ht]

theorem filterMap_if_filter {α β : Type} (l : List α) (p : α → Bool) (F : α → Option β) :
    l.filterMap (fun k => if p k then F k else none) = (l.filter p).filterMap F := by
  induction l with
  | nil => rfl
  | cons a rest ih =>
    cases hp : p a with
    | true => simp [List.filterMap_cons, List.filter_cons, hp, ih]
    | false => simp [List.filterMap_cons, List.filter_cons, hp, ih]

theorem map_fst_filter_key {α : Type} (m : List (Nat × α)) (qk : Nat → Bool) :
    (m.filter (fun p => qk p.1)).map Prod.fst = (m.map Prod.fst).filter qk := by
  induction m with
  | nil => rfl
  | cons p rest ih =>
    cases hp : qk p.1 with
    | true => simp [List.filter_cons, hp, ih]
    | false => simp [List.filter_cons, hp, ih]

theorem alookup_filter_key {α : Type} (m : List (Nat × α)) (qk : Nat → Bool) (k : Nat) :
    alookup (m.filter (fun p => qk p.1)) k = if qk k then alookup m k else none := by
  induction m with
  | nil => simp [alookup]
  | cons p rest ih =>
    obtain ⟨a, w⟩ := p
    by_cases hak : a = k
    · subst hak
      cases hq : qk a with
      | true => simp [List.filter_cons, hq, alookup]
      | false => simpa [List.filter_cons, hq, alookup] using ih
    · cases hq : qk a with
      | true => simp [List.filter_cons, hq, alookup, hak, ih]
      | false => simp [List.filter_cons, hq, alookup, hak, ih]

theorem aerase_eq_filter {α : Type} (m : List (Nat × α)) (k : Nat)
    (h : NodupKeys m) : aerase m k = m.filter (fun p => !(p.1 == k)) := by
  induction m with
  | nil => rfl
  | cons p rest ih =>
    obtain ⟨a, w⟩ := p
    obtain ⟨hnot, hrest⟩ := List.nodup_cons.mp h
    by_cases hak : a = k
    · subst hak
      have hall : rest.filter (fun p => !(p.1 == a)) = rest := by
        rw [List.filter_eq_self]
        intro q hq
        simp only [Bool.not_eq_eq_eq_not, Bool.not_true, beq_eq_false_iff_ne, ne_eq]
        intro hqa
        exact hnot (by simpa [← hqa] using List.mem_map_of_mem Prod.fst hq)
      simp [aerase, List.filter_cons, hall]
    · simp [aerase, List.filter_cons, hak, ih hrest]

theorem nodupKeys_filter {α : Type} (m : List (Nat × α)) (q : Nat × α → Bool)
    (h : NodupKeys m) : NodupKeys (m.filter q) :=
  List.Nodup.sublist (List.Sublist.map Prod.fst (List.filter_sublist m)) h

theorem eraseList_eq_filter {α : Type} (ks : List Nat) (m : List (Nat × α))
    (h : NodupKeys m) : eraseList m ks = m.filter (fun p => !(p.1 ∈ ks : Bool)) := by
  induction ks generalizing m with
  | nil =>
    unfold eraseList
    simp
  | cons k rest ih =>
    have h1 : eraseList m (k :: rest) = eraseList (aerase m k) rest := rfl
    rw [h1, ih (aerase m k) (nodupKeys_aerase m k h), aerase_eq_filter m k h,
      List.filter_filter]
    apply List.filter_congr
    intro p hp
    by_cases hk : p.1 = k
    · simp [hk]
    · by_cases hr : p.1 ∈ rest <;> simp [hk, hr]

/-!
Characterization of one getOutEdgesOf validation step and of the whole pass.
-/

theorem getEdge_out_step_good {g : Graph} {b k : Nat} {n : Node}
    (hb : alookup g.nodes b = some n)
    (hout : (alookup n.outEdges k).isSome = true)
    (hgood : goodTarget g b k = true) :
    getEdge g b k = (alookup n.outEdges k, g) := by
  unfold goodTarget at hgood
  cases hk : alookup g.nodes k with
  | none => rw [hk] at hgood; cases hgood
  | some kt =>
    simp only [hk] at hgood
    rcases ho : alookup n.outEdges k with _ | v
    · rw [ho] at hout; cases hout
    · rcases hi : alookup kt.inEdges b with _ | e
      · rw [hi] at hgood; cases hgood
      · simp [getEdge, hb, hk, ho, hi]

theorem getEdge_out_step_bad {g : Graph} {b k : Nat} {n : Node}
    (hb : alookup g.nodes b = some n)
    (hout : (alookup n.outEdges k).isSome = true)
    (hgood : goodTarget g b k = false) :
    getEdge g b k = (none, setNode g b { n with outEdges := aerase n.outEdges k }) := by
  unfold goodTarget at hgood
  rcases ho : alookup n.outEdges k with _ | v
  · rw [ho] at hout; cases hout
  · cases hk : alookup g.nodes k with
    | none => simp [getEdge, hb, hk, ho]
    | some kt =>
      simp only [hk] at hgood
      rcases hi : alookup kt.inEdges b with _ | e
      · simp [getEdge, hb, hk, ho, hi]
      · rw [hi] at hgood; cases hgood

theorem goodTarget_aset {g : Graph} {b : Nat} {n n1 : Node} (k : Nat)
    (hb : alookup g.nodes b = some n) (hin : n1.inEdges = n.inEdges) :
    goodTarget { g with nodes := aset g.nodes b n1 } b k = goodTarget g b k := by
  unfold goodTarget
  by_cases hkb : k = b
  · subst hkb
    simp only [alookup_aset_self, hb, hin]
  · simp only [alookup_aset_ne _ _ _ _ hkb]

theorem collectOut_spec (ks : List Nat) (g : Graph) (b : Nat) (n : Node)
    (hb : alookup g.nodes b = some n)
    (hk : ∀ k ∈ ks, (alookup n.outEdges k).isSome = true)
    (hnd : ks.Nodup) :
    collectOut g b ks =
      (ks.filterMap (fun k => if goodTarget g b k then alookup n.outEdges k else none),
       { g with nodes := aset g.nodes b { n with outEdges := eraseList n.outEdges (ks.filter (fun k => !goodTarget g b k)) } }) := by
  induction ks generalizing g n with
  | nil =>
    have h1 : aset g.nodes b n = g.nodes := aset_eq_of_alookup _ _ _ hb
    simp [collectOut, eraseList, h1]
  | cons k rest ih =>
    have hout : (alookup n.outEdges k).isSome = true := hk k (by simp)
    obtain ⟨hknr, hndr⟩ := List.nodup_cons.mp hnd
    cases hgood : goodTarget g b k with
    | true =>
      have hstep := getEdge_out_step_good hb hout hgood
      rcases Option.isSome_iff_exists.mp hout with ⟨v, hv⟩
      have hrest := ih g n hb (fun x hx => hk x (by simp [hx])) hndr
      have hcoll : collectOut g b (k :: rest) = (v :: (collectOut g b rest).1,
          (collectOut g b rest).2) := by
        simp [collectOut, hstep, hv]
      rw [hcoll, hrest]
      simp [List.filterMap_cons, List.filter_cons, hgood, hv]
    | false =>
      have hstep := getEdge_out_step_bad hb hout hgood
      have hcoll : collectOut g b (k :: rest) =
          collectOut (setNode g b { n with outEdges := aerase n.outEdges k }) b rest := by
        simp [collectOut, hstep]
      have hb1 : alookup (setNode g b { n with outEdges := aerase n.outEdges k }).nodes b
          = some { n with outEdges := aerase n.outEdges k } := by
        simp [setNode, alookup_aset_self]
      have hk1 : ∀ x ∈ rest,
          (alookup ({ n with outEdges := aerase n.outEdges k } : Node).outEdges x).isSome
            = true := by
        intro x hx
        have hxk : x ≠ k := fun hh => hknr (hh ▸ hx)
        simpa [alookup_aerase_ne _ _ _ hxk] using hk x (by simp [hx])
      have hrest := ih (setNode g b { n with outEdges := aerase n.outEdges k })
        { n with outEdges := aerase n.outEdges k } hb1 hk1 hndr
      have hgd : ∀ x, goodTarget (setNode g b { n with outEdges := aerase n.outEdges k }) b x
          = goodTarget g b x := by
        intro x
        exact goodTarget_aset x hb rfl
      have hlist : (rest.filterMap (fun x =>
            if goodTarget (setNode g b { n with outEdges := aerase n.outEdges k }) b x then
              alookup ({ n with outEdges := aerase n.outEdges k } : Node).outEdges x
            else none))
          = (k :: rest).filterMap
              (fun x => if goodTarget g b x then alookup n.outEdges x else none) := by
        rw [List.filterMap_cons]
        simp only [hgood, Bool.false_eq_true, if_false]
        apply filterMap_congr_mem
        intro x hx
        have hxk : x ≠ k := fun hh => hknr (hh ▸ hx)
        rw [hgd x]
        cases hgx : goodTarget g b x with
        | true => simp [alookup_aerase_ne _ _ _ hxk]
        | false => simp
      have hbad : (rest.filter (fun x =>
            !goodTarget (setNode g b { n with outEdges := aerase n.outEdges k }) b x))
          = rest.filter (fun x => !goodTarget g b x) := by
        apply List.filter_congr
        intro x hx
        rw [hgd x]
      have hnod : ({ n with outEdges := eraseList (aerase n.outEdges k) (rest.filter (fun x => !goodTarget g b x)) } : Node)
          = { n with outEdges := eraseList n.outEdges ((k :: rest).filter (fun x => !goodTarget g b x)) } := by
        rw [List.filter_cons]
        simp [hgood, eraseList]
      rw [hcoll, hrest, hlist, hbad]
      simp only [setNode]
      rw [Prod.mk.injEq]
      refine ⟨rfl, ?_⟩
      rw [Graph.mk.injEq]
      refine ⟨?_, rfl, rfl⟩
      rw [aset_aset_same]
      exact congrArg (aset g.nodes b) hnod

theorem eraseList_nil {α : Type} (m : List (Nat × α)) : eraseList m [] = m := rfl

theorem collectOut_all_good (G : Graph) (b : Nat) (m : Node) (ks : List Nat)
    (hb : alookup G.nodes b = some m)
    (hgood : ∀ k ∈ ks, goodTarget G b k = true)
    (hks : ∀ k ∈ ks, (alookup m.outEdges k).isSome = true)
    (hnd : ks.Nodup) :
    collectOut G b ks = (ks.filterMap (fun k => alookup m.outEdges k), G) := by
  have hspec := collectOut_spec ks G b m hb hks hnd
  rw [hspec, Prod.mk.injEq]
  constructor
  · apply filterMap_congr_mem
    intro k hk
    rw [hgood k hk]
    simp
  · have hbadnil : ks.filter (fun k => !goodTarget G b k) = [] := by
      rw [List.filter_eq_nil_iff]
      intro k hk
      rw [hgood k hk]
      simp
    rw [hbadnil, eraseList_nil,
      show ({ m with outEdges := m.outEdges } : Node) = m from rfl,
      aset_eq_of_alookup _ _ _ hb]

/-- After one `getOutEdgesOf` pass over node `b`, a second pass returns the
same list and leaves the state fixed. -/
theorem getOutEdgesOf_second_pass (g : Graph) (b : Nat) (n n' : Node) (bad : List Nat)
    (hg : WF g) (hb : alookup g.nodes b = some n)
    (hbad : bad = (n.outEdges.map Prod.fst).filter (fun k => !goodTarget g b k))
    (hn' : n' = { n with outEdges := eraseList n.outEdges bad }) :
    getOutEdgesOf { g with nodes := aset g.nodes b n' } b =
      ((n.outEdges.map Prod.fst).filterMap
          (fun k => if goodTarget g b k then alookup n.outEdges k else none),
        { g with nodes := aset g.nodes b n' }) := by
  have hmem := mem_of_alookup _ _ _ hb
  have hno : NodupKeys n.outEdges := (hg.2 _ hmem).1
  have hout' : n'.outEdges = n.outEdges.filter (fun p => !(p.1 ∈ bad : Bool)) := by
    rw [hn']
    exact eraseList_eq_filter bad n.outEdges hno
  have hb' : alookup ({ g with nodes := aset g.nodes b n' } : Graph).nodes b = some n' :=
    alookup_aset_self _ _ _
  have hgd : ∀ x, goodTarget { g with nodes := aset g.nodes b n' } b x = goodTarget g b x := by
    intro x
    apply goodTarget_aset x hb
    rw [hn']
  have hkmem : ∀ k, k ∈ n'.outEdges.map Prod.fst →
      k ∈ n.outEdges.map Prod.fst ∧ goodTarget g b k = true := by
    intro k hk
    rw [hout', map_fst_filter_key n.outEdges (fun k => !(k ∈ bad : Bool))] at hk
    have hk2 := List.mem_filter.mp hk
    refine ⟨hk2.1, ?_⟩
    have hnb : ¬k ∈ bad := by simpa using hk2.2
    cases hgk : goodTarget g b k with
    | true => rfl
    | false =>
      exfalso
      apply hnb
      rw [hbad]
      exact List.mem_filter.mpr ⟨hk2.1, by rw [hgk]; rfl⟩
  have hgood' : ∀ k ∈ n'.outEdges.map Prod.fst,
      goodTarget { g with nodes := aset g.nodes b n' } b k = true := by
    intro k hk
    rw [hgd k]
    exact (hkmem k hk).2
  have hnd' : (n'.outEdges.map Prod.fst).Nodup := by
    rw [hout']
    exact nodupKeys_filter _ _ hno
  have hks' : ∀ k ∈ n'.outEdges.map Prod.fst, (alookup n'.outEdges k).isSome = true :=
    fun k hk => (alookup_isSome_iff_mem _ _).mpr hk
  have hcall : getOutEdgesOf { g with nodes := aset g.nodes b n' } b =
      collectOut { g with nodes := aset g.nodes b n' } b (n'.outEdges.map Prod.fst) := by
    simp only [getOutEdgesOf, hb']
  have hgall := collectOut_all_good { g with nodes := aset g.nodes b n' } b n'
    (n'.outEdges.map Prod.fst) hb' hgood' hks' hnd'
  rw [hcall, hgall, Prod.mk.injEq]
  refine ⟨?_, rfl⟩
  have hL : (n.outEdges.map Prod.fst).filterMap
        (fun k => if goodTarget g b k then alookup n.outEdges k else none)
      = ((n.outEdges.map Prod.fst).filter (fun k => goodTarget g b k)).filterMap
          (fun k => alookup n.outEdges k) :=
    filterMap_if_filter _ _ _
  have hkeys' : n'.outEdges.map Prod.fst =
      (n.outEdges.map Prod.fst).filter (fun k => goodTarget g b k) := by
    rw [hout', map_fst_filter_key n.outEdges (fun k => !(k ∈ bad : Bool))]
    apply List.filter_congr
    intro k hk
    cases hgk : goodTarget g b k with
    | true =>
      have hnb : ¬k ∈ bad := by
        rw [hbad]
        intro hmemb
        have h3 := (List.mem_filter.mp hmemb).2
        rw [hgk] at h3
        simp at h3
      simp [hnb]
    | false =>
      have hmb : k ∈ bad := by
        rw [hbad]
        exact List.mem_filter.mpr ⟨hk, by rw [hgk]; rfl⟩
      simp [hmb]
  rw [hkeys', hL]
  apply filterMap_congr_mem
  intro k hk
  have hk2 := List.mem_filter.mp hk
  have hnb : ¬k ∈ bad := by
    rw [hbad]
    intro hmemb
    have h3 := (List.mem_filter.mp hmemb).2
    rw [hk2.2] at h3
    simp at h3
  rw [hout', alookup_filter_key n.outEdges (fun k => !(k ∈ bad : Bool)) k]
  simp [hnb]

theorem getOutEdgesOf_idem (g : Graph) (b : Nat) (hg : WF g) :
    getOutEdgesOf (getOutEdgesOf g b).2 b = getOutEdgesOf g b := by
  cases hb : alookup g.nodes b with
  | none =>
    have h1 : getOutEdgesOf g b = ([], g) := by simp [getOutEdgesOf, hb]
    rw [h1]
    simpa [getOutEdgesOf, hb] using h1
  | some n =>
    have hmem := mem_of_alookup _ _ _ hb
    have hno : NodupKeys n.outEdges := (hg.2 _ hmem).1
    have hkin : ∀ k ∈ n.outEdges.map Prod.fst, (alookup n.outEdges k).isSome = true :=
      fun k hk => (alookup_isSome_iff_mem _ _).mpr hk
    have h1 : getOutEdgesOf g b = collectOut g b (n.outEdges.map Prod.fst) := by
      simp [getOutEdgesOf, hb]
    have hspec := collectOut_spec (n.outEdges.map Prod.fst) g b n hb hkin hno
    rw [h1, hspec]
    exact getOutEdgesOf_second_pass g b n _ _ hg hb rfl rfl

theorem getEdge_fst_missing (g : Graph) (a b : Nat)
    (ha : alookup g.nodes a = none) : (getEdge g a b).1 = none := by
  cases hb : alookup g.nodes b with
  | none => simp [getEdge, ha, hb]
  | some tn =>
    rcases hi : alookup tn.inEdges a with _ | e <;> simp [getEdge, ha, hb, hi]

theorem getEdge_missing_idem (g : Graph) (a b : Nat) (hg : WF g)
    (ha : alookup g.nodes a = none) :
    getEdge (getEdge g a b).2 a b = (none, (getEdge g a b).2) := by
  cases hb : alookup g.nodes b with
  | none =>
    have h1 : getEdge g a b = (none, g) := by simp [getEdge, ha, hb]
    rw [h1]
    simp [getEdge, ha, hb]
  | some tn =>
    have hab : a ≠ b := by
      intro hh
      rw [hh, hb] at ha
      cases ha
    rcases hi : alookup tn.inEdges a with _ | e
    · have h1 : getEdge g a b = (none, g) := by simp [getEdge, ha, hb, hi]
      rw [h1]
      simp [getEdge, ha, hb, hi]
    · have h1 : getEdge g a b =
          (none, setNode g b { tn with inEdges := aerase tn.inEdges a }) := by
        simp [getEdge, ha, hb, hi]
      have hmem := mem_of_alookup _ _ _ hb
      have hni : NodupKeys tn.inEdges := (hg.2 _ hmem).2
      have ha2 : alookup (setNode g b { tn with inEdges := aerase tn.inEdges a }).nodes a
          = none := by
        simp only [setNode]
        rw [alookup_aset_ne _ _ _ _ hab]
        exact ha
      have hb2 : alookup (setNode g b { tn with inEdges := aerase tn.inEdges a }).nodes b
          = some { tn with inEdges := aerase tn.inEdges a } := by
        simp [setNode, alookup_aset_self]
      have hi2 : alookup ({ tn with inEdges := aerase tn.inEdges a } : Node).inEdges a
          = none := alookup_aerase_self _ _ hni
      rw [h1]
      simp [getEdge, ha2, hb2, hi2]

theorem collectOut_edgeSize (ks : List Nat) (g : Graph) (nid : Nat) :
    (collectOut g nid ks).2.edgeSize = g.edgeSize := by
  induction ks generalizing g with
  | nil => rfl
  | cons k rest ih =>
    cases hv : (getEdge g nid k).1 with
    | none =>
      have := ih (getEdge g nid k).2
      simpa [collectOut, hv, getEdge_edgeSize] using this
    | some e =>
      have := ih (getEdge g nid k).2
      simpa [collectOut, hv, getEdge_edgeSize] using this

theorem getOutEdgesOf_edgeSize (g : Graph) (b : Nat) :
    (getOutEdgesOf g b).2.edgeSize = g.edgeSize := by
  cases hb : alookup g.nodes b with
  | none => simp [getOutEdgesOf, hb]
  | some n => simp [getOutEdgesOf, hb, collectOut_edgeSize]

/-- Claim C8.  In any well-formed state from which node `a` has been removed
(it is absent from the node map), looking up the stale slot via
`getEdge a b` yields absent, leaves `edgeSize` unchanged, and is idempotent
(a second call returns the same absent result and the identical state);
`getOutEdgesOf b` likewise leaves `edgeSize` unchanged and returns the same
list and state when repeated any number of times. -/
theorem C8_ghost_cleanup_idempotent (g : Graph) (a b : Nat)
    (hg : WF g) (ha : alookup g.nodes a = none) :
    (getEdge g a b).1 = none ∧
    (getEdge g a b).2.edgeSize = g.edgeSize ∧
    getEdge (getEdge g a b).2 a b = (none, (getEdge g a b).2) ∧
    (getOutEdgesOf g b).2.edgeSize = g.edgeSize ∧
    getOutEdgesOf (getOutEdgesOf g b).2 b = getOutEdgesOf g b :=
  ⟨getEdge_fst_missing g a b ha, getEdge_edgeSize g a b,
    getEdge_missing_idem g a b hg ha, getOutEdgesOf_edgeSize g b,
    getOutEdgesOf_idem g b hg⟩

/-- Witness for C8 on c8g, where node 0 (which had the edge 0 → 1) has been
removed and node 1 retains the ghost in-slot. -/
theorem C8_ghost_cleanup_idempotent_witness :
    (getEdge c8g 0 1).1 = none ∧
    (getEdge c8g 0 1).2.edgeSize = c8g.edgeSize ∧
    getEdge (getEdge c8g 0 1).2 0 1 = (none, (getEdge c8g 0 1).2) ∧
    (getOutEdgesOf c8g 1).2.edgeSize = c8g.edgeSize ∧
    getOutEdgesOf (getOutEdgesOf c8g 1).2 1 = getOutEdgesOf c8g 1 :=
  C8_ghost_cleanup_idempotent c8g 0 1 (by decide) (by decide)

/-- Claim C9.  In any state whose node `nid` is live with a valid self-loop
`e` (occupying both its maps) and exactly one other valid out-edge `e2` to a
live node `b`, and no other edges touching `nid`, `getAllEdgesOf nid`
returns exactly 2 edges — the self-loop once, despite its double
occurrence — and does not change the state. -/
theorem C9_getAllEdgesOf_selfloop (g : Graph) (nid b : Nat) (e e2 : Edge)
    (nd bn : Node)
    (hnb : nid ≠ b)
    (hnd : alookup g.nodes nid = some nd)
    (hin : nd.inEdges = [(nid, e)])
    (hout : nd.outEdges = [(nid, e), (b, e2)] ∨ nd.outEdges = [(b, e2), (nid, e)])
    (hbn : alookup g.nodes b = some bn)
    (hbin : alookup bn.inEdges nid = some e2)
    (het : e.toId = nid) (he2t : e2.toId = b) :
    (getAllEdgesOf g nid).1.length = 2 ∧
    (getAllEdgesOf g nid).1.count e = 1 ∧
    (getAllEdgesOf g nid).1.count e2 = 1 ∧
    (getAllEdgesOf g nid).2 = g := by
  have hbn' : ¬b = nid := fun hh => hnb hh.symm
  have hne : e ≠ e2 := by
    intro hh
    rw [hh, he2t] at het
    exact hnb het.symm
  have hne' : ¬e2 = e := fun hh => hne hh.symm
  have hon : alookup nd.outEdges nid = some e := by
    rcases hout with h | h <;> simp [h, alookup, hbn']
  have hob : alookup nd.outEdges b = some e2 := by
    rcases hout with h | h <;> simp [h, alookup, hnb]
  have hinn : alookup nd.inEdges nid = some e := by
    simp [hin, alookup]
  have hEdgeSelf : getEdge g nid nid = (some e, g) := by
    rw [getEdge_bothSome _ _ _ hnd hnd]
    simp [hon, hinn]
  have hEdgeB : getEdge g nid b = (some e2, g) := by
    rw [getEdge_bothSome _ _ _ hnd hbn]
    simp [hob, hbin]
  have hIn : getInEdgesOf g nid = ([e], g) := by
    simp [getInEdgesOf, hnd, hin, collectIn, hEdgeSelf]
  have hfi : firstIdx [e] e = some 0 := by
    simp [firstIdx, List.findIdx?]
  have hps : popSwap [e] 0 = [] := by
    simp [popSwap]
  rcases hout with h | h
  · have hOut : getOutEdgesOf g nid = ([e, e2], g) := by
      simp [getOutEdgesOf, hnd, h, collectOut, hEdgeSelf, hEdgeB]
    have hA : getAllEdgesOf g nid = ([e, e2], g) := by
      simp [getAllEdgesOf, hIn, hOut, hEdgeSelf, hfi, hps]
    rw [hA]
    refine ⟨rfl, ?_, ?_, rfl⟩
    · simp [List.count_cons, hne, hne']
    · simp [List.count_cons, hne, hne']
  · have hOut : getOutEdgesOf g nid = ([e2, e], g) := by
      simp [getOutEdgesOf, hnd, h, collectOut, hEdgeSelf, hEdgeB]
    have hA : getAllEdgesOf g nid = ([e2, e], g) := by
      simp [getAllEdgesOf, hIn, hOut, hEdgeSelf, hfi, hps]
    rw [hA]
    refine ⟨rfl, ?_, ?_, rfl⟩
    · simp [List.count_cons, hne, hne']
    · simp [List.count_cons, hne, hne']

/-- Witness for C9 on c9g: node 0 with self-loop ⟨0,0,1⟩ and out-edge
⟨0,1,1⟩ to node 1. -/
theorem C9_getAllEdgesOf_selfloop_witness :
    (getAllEdgesOf c9g 0).1.length = 2 ∧
    (getAllEdgesOf c9g 0).1.count ⟨0, 0, 1⟩ = 1 ∧
    (getAllEdgesOf c9g 0).1.count ⟨0, 1, 1⟩ = 1 ∧
    (getAllEdgesOf c9g 0).2 = c9g :=
  C9_getAllEdgesOf_selfloop c9g 0 1 ⟨0, 0, 1⟩ ⟨0, 1, 1⟩
    ⟨0, [(0, ⟨0, 0, 1⟩), (1, ⟨0, 1, 1⟩)], [(0, ⟨0, 0, 1⟩)], 2⟩
    ⟨1, [], [(0, ⟨0, 1, 1⟩)], 1⟩
    (by decide) (by decide) (by decide) (Or.inl (by decide)) (by decide)
    (by decide) (by decide) (by decide)
